import Mathlib

/-
Verification of the core of the ca-gateway conformance test harness:
the structured diff utility, the event-stream comparison engine
(gateway_tests/conftest.py, gateway_tests/test_subscriptions.py), the
process supervisor (run_process) and the dual-endpoint environment
(file_test_environment / custom_environment), and the environment scope
manager (context_set_env).

Python values captured in subscription events are modelled by `Val`;
pyepics metadata dictionaries by association lists `Struct`; functions
that can raise are modelled in the `Except String` monad; the process
supervision layer is modelled as traces of observable actions.
-/

namespace CaGateway

/-- Values appearing in pyepics-provided metadata structures: finite
numbers (ints and floats, modelled as rationals), the float NaN
sentinel, strings, tuples of numbers, and numpy arrays (values carrying
a `tolist` attribute). -/
inductive Val where
  | num (q : ℚ)
  | nan
  | str (s : String)
  | tup (l : List ℚ)
  | arr (l : List ℚ)
  deriving DecidableEq

/-- Python `==` on captured values: the float NaN compares unequal to
everything (including itself), numbers compare by value, tuples
element-wise, values of different kinds compare unequal. -/
def pyEq : Val → Val → Bool
  | .num a, .num b => a == b
  | .str a, .str b => a == b
  | .tup a, .tup b => a == b
  | .arr a, .arr b => a == b
  | _, _ => false

/-- Python `math.isnan`: defined on numbers (`some`), raises
`TypeError` on non-numeric values (modelled as `none`). -/
def pyIsNan : Val → Option Bool
  | .num _ => some false
  | .nan => some true
  | _ => none

/-- The guarded `math.isnan(value1) and math.isnan(value2)` test inside
`find_differences`: Python `and` short-circuits, and a `TypeError`
raised by either operand is caught and treated as no match. -/
def nanSelfCheck (v1 v2 : Val) : Bool :=
  match pyIsNan v1 with
  | none => false
  | some false => false
  | some true => (pyIsNan v2).getD false

/-- The `tolist` normalization in `find_differences`: values with a
`tolist` attribute (numpy arrays) are converted to tuples. -/
def normalizeVal : Val → Val
  | .arr l => .tup l
  | v => v

/-- A pyepics metadata structure: an ordered key/value mapping, one
snapshot delivered by a subscription callback or a get. -/
abbrev Struct := List (String × Val)

/-- The keys of a structure, in insertion order. -/
def structKeys (s : Struct) : List String := s.map Prod.fst

/-- Dictionary lookup, `struct[key]` (`none` models `KeyError`). -/
def structGet : Struct → String → Option Val
  | [], _ => none
  | (k2, v) :: rest, k => if k2 = k then some v else structGet rest k

/-- Lexicographic code-point comparison of character lists, the order
Python `sorted` uses on strings. -/
def charsLe : List Char → List Char → Bool
  | [], _ => true
  | _ :: _, [] => false
  | c :: cs, d :: ds =>
    if c.toNat < d.toNat then true
    else if d.toNat < c.toNat then false
    else charsLe cs ds

/-- String comparison used to sort the key union. -/
def strLeB (a b : String) : Bool := charsLe a.toList b.toList

/-- Stable insertion into a sorted key list. -/
def insertSorted (k : String) : List String → List String
  | [] => [k]
  | x :: xs => if strLeB k x then k :: x :: xs else x :: insertSorted k xs

/-- Python `sorted` on a list of keys. -/
def sortKeys : List String → List String
  | [] => []
  | x :: xs => insertSorted x (sortKeys xs)

/-- Python `set(...)`: collapse duplicate keys. -/
def dedupKeys : List String → List String
  | [] => []
  | x :: xs => let r := dedupKeys xs; if x ∈ r then r else x :: r

/-- The iteration order of `find_differences`:
`sorted(set(struct1).union(struct2))`. -/
def sortedUnionKeys (s1 s2 : Struct) : List String :=
  sortKeys (dedupKeys (structKeys s1 ++ structKeys s2))

/-- The key-by-key loop of `find_differences`: a key on the skip list
is skipped before anything else; a key missing on either side raises
`RuntimeError`; values are `tolist`-normalized; a pair of NaNs is not a
difference; otherwise Python `!=` decides whether the key is yielded. -/
def findDiffsAux (s1 s2 : Struct) (d1 d2 : String) (skip : List String) :
    List String → Except String (List (String × Val × Val))
  | [] => .ok []
  | k :: ks =>
    if k ∈ skip then findDiffsAux s1 s2 d1 d2 skip ks
    else
      match structGet s1 k with
      | none => .error ("Missing key " ++ k ++ " in the " ++ d1 ++ " struct")
      | some v1 =>
        match structGet s2 k with
        | none => .error ("Missing key " ++ k ++ " in the " ++ d2 ++ " struct")
        | some v2 =>
          let v2n := normalizeVal v2
          let v1n := normalizeVal v1
          if nanSelfCheck v1n v2n then findDiffsAux s1 s2 d1 d2 skip ks
          else if pyEq v2n v1n then findDiffsAux s1 s2 d1 d2 skip ks
          else
            match findDiffsAux s1 s2 d1 d2 skip ks with
            | .error e => .error e
            | .ok rest => .ok ((k, v1n, v2n) :: rest)

/-- Python `find_differences(struct1, struct2, desc1, desc2, skip_keys)`:
compare two structures and yield the differing keys in sorted order,
with their values from each side.  `skip_keys=None` defaults to
`["chid"]`.  A missing key raises `RuntimeError` (modelled as
`.error`). -/
def find_differences (struct1 struct2 : Struct) (desc1 desc2 : String)
    (skip_keys : Option (List String)) :
    Except String (List (String × Val × Val)) :=
  findDiffsAux struct1 struct2 desc1 desc2 (skip_keys.getD ["chid"])
    (sortedUnionKeys struct1 struct2)

/-- Rendering of a rational in difference messages. -/
def renderRat (q : ℚ) : String :=
  if q.den = 1 then toString q.num
  else toString q.num ++ "/" ++ toString q.den

/-- Python `", ".join` used when rendering tuples. -/
def joinComma : List String → String
  | [] => ""
  | [s] => s
  | s :: rest => s ++ ", " ++ joinComma rest

/-- Rendering of a captured value inside a difference message. -/
def renderVal : Val → String
  | .num q => renderRat q
  | .nan => "nan"
  | .str s => s
  | .tup l => "(" ++ joinComma (l.map renderRat) ++ ")"
  | .arr l => "[" ++ joinComma (l.map renderRat) ++ "]"

/-- One line of `compare_structures` output for a differing key
(quoting of the Python f-string omitted). -/
def renderDiff (d1 d2 : String) (t : String × Val × Val) : String :=
  "Element " ++ t.1 ++ " : " ++ d1 ++ " has " ++ renderVal t.2.1 ++
    ", but " ++ d2 ++ " has " ++ renderVal t.2.2

/-- Python `"\n\t".join`. -/
def joinDiffs : List String → String
  | [] => ""
  | [d] => d
  | d :: rest => d ++ "\n\t" ++ joinDiffs rest

/-- Python `compare_structures(struct1, struct2, desc1, desc2)`: render the
differences as a human-friendly message.  Identical structures produce
the empty string. -/
def compare_structures (struct1 struct2 : Struct) (desc1 desc2 : String) :
    Except String String :=
  match find_differences struct1 struct2 desc1 desc2 none with
  | .error e => .error e
  | .ok ds => .ok (joinDiffs (ds.map (renderDiff desc1 desc2)))

/-- Python `isinstance(v, (int, float))`: NaN is a float, so it counts
as a number. -/
def isPyNumber : Val → Bool
  | .num _ => true
  | .nan => true
  | _ => false

/-- Python `is_acceptable_nan_difference(value1, value2)`: are the two values
either NaN or 0.0? -/
def is_acceptable_nan_difference (value1 value2 : Val) : Bool :=
  if !(isPyNumber value1 && isPyNumber value2) then false
  else if value1 = Val.nan then decide (value2 = Val.num 0 ∨ value2 = Val.nan)
  else if value2 = Val.nan then decide (value1 = Val.num 0 ∨ value1 = Val.nan)
  else false

/-- The loop of `deduplicate_events`: keep `event` only when it differs
from the last retained event (`result[-1]`). -/
def dedupAux (last : Struct) : List Struct → Except String (List Struct)
  | [] => .ok []
  | event :: rest =>
    match compare_structures last event "Gateway" "IOC" with
    | .error e => .error e
    | .ok c =>
      if c ≠ "" then
        match dedupAux event rest with
        | .error e => .error e
        | .ok tail => .ok (event :: tail)
      else dedupAux last rest

/-- Python `deduplicate_events(events)`: drop subsequent events identical to
the last retained one; the first event is always retained. -/
def deduplicate_events : List Struct → Except String (List Struct)
  | [] => .ok []
  | event :: rest =>
    match dedupAux event rest with
    | .error e => .error e
    | .ok tail => .ok (event :: tail)

/-- Python `dict(event)` followed by `.pop("timestamp", None)`, applied to
both events of a pair when the form is "ctrl". -/
def popTimestamp (s : Struct) : Struct :=
  s.filter (fun kv => kv.1 != "timestamp")

/-- The indexed zip loop of `compare_subscription_events`: for each
pair, drop timestamps for the "ctrl" form, compare the structures, and
raise unless the pair is identical or all its differences are in the
NaN/zero class with `nan_strict` off. -/
def compareEventPairs (form : String) (nanStrict : Bool) (nIoc nGw : Nat) :
    Nat → List (Struct × Struct) → Except String Unit
  | _, [] => .ok ()
  | eventIdx, (gwEvent0, iocEvent0) :: rest =>
    let gwEvent := if form = "ctrl" then popTimestamp gwEvent0 else gwEvent0
    let iocEvent := if form = "ctrl" then popTimestamp iocEvent0 else iocEvent0
    match compare_structures gwEvent iocEvent "Gateway" "IOC" with
    | .error e => .error e
    | .ok differences =>
      if differences = "" then
        compareEventPairs form nanStrict nIoc nGw (eventIdx + 1) rest
      else
        match find_differences gwEvent iocEvent "gateway" "ioc" none with
        | .error e => .error e
        | .ok ds =>
          if ds.all (fun t => is_acceptable_nan_difference t.2.1 t.2.2) then
            if nanStrict then
              .error ("NaN-handling differences in event " ++ toString eventIdx ++
                " of IOC=" ++ toString nIoc ++ " GW=" ++ toString nGw ++
                ":\n " ++ differences)
            else compareEventPairs form nanStrict nIoc nGw (eventIdx + 1) rest
          else
            .error ("Differences in event " ++ toString eventIdx ++ " of IOC=" ++
              toString nIoc ++ " GW=" ++ toString nGw ++ ":\n" ++ differences)

/-- The block of `compare_subscription_events` handling the known case
of exactly two (post-deduplication) gateway events against one IOC
event: if the two gateway events are identical this is tolerated unless
`strict`; if they differ only in the NaN/zero class it is tolerated
unless `nan_strict`; otherwise it is a failure. -/
def duplicateInitialCheck (gw0 gw1 : Struct) (strict nanStrict : Bool) :
    Except String Unit :=
  match compare_structures gw0 gw1 "event 0" "event 1" with
  | .error e => .error e
  | .ok differences =>
    if differences = "" then
      if strict then .error "Duplicate initial event received"
      else .ok ()
    else
      match find_differences gw0 gw1 "event 0" "event 1" none with
      | .error e => .error e
      | .ok ds =>
        if ds.all (fun t => is_acceptable_nan_difference t.2.1 t.2.2) then
          if nanStrict then
            .error ("NaN handling difference:\n" ++ differences)
          else .ok ()
        else .error ("Differences in events:\n" ++ differences)

/-- Python `compare_subscription_events(gateway_events, form, ioc_events,
strict, nan_strict, deduplicate)`: optionally deduplicate the gateway
log, compare the two logs pairwise by zipping, tolerate the known
duplicate-initial-event case of exactly two gateway events against one
IOC event, and finally require equal lengths. -/
def compare_subscription_events (gatewayEvents0 : List Struct) (form : String)
    (iocEvents : List Struct) (strict nanStrict deduplicate : Bool) :
    Except String Unit :=
  match (if deduplicate then deduplicate_events gatewayEvents0
         else .ok gatewayEvents0) with
  | .error e => .error e
  | .ok gatewayEvents =>
    match compareEventPairs form nanStrict iocEvents.length
        gatewayEvents.length 1 (gatewayEvents.zip iocEvents) with
    | .error e => .error e
    | .ok _ =>
      match gatewayEvents, iocEvents with
      | [gw0, gw1], [_] => duplicateInitialCheck gw0 gw1 strict nanStrict
      | gws, iocs =>
        if gws.length = iocs.length then .ok ()
        else
          .error ("Gateway events = " ++ toString gws.length ++
            ", but IOC events = " ++ toString iocs.length ++ ".")

/-- The process environment mapping, `os.environ`. -/
abbrev Env := List (String × String)

/-- Python `os.environ.get(key, None)`. -/
def envGet : Env → String → Option String
  | [], _ => none
  | (k2, v) :: rest, k => if k2 = k then some v else envGet rest k

/-- Python `os.environ[key] = value`: replace an existing binding or append a
new one. -/
def envSet : Env → String → String → Env
  | [], k, v => [(k, v)]
  | (k2, v2) :: rest, k, v =>
    if k2 = k then (k, v) :: rest else (k2, v2) :: envSet rest k v

/-- Python `context_set_env(key, value)` around a body that may itself modify
the environment and may raise: the prior value is read with
`os.environ.get(key, None)`, the new value is installed, and in the
`finally` block the prior value is written back only when it was not
`None`; the body outcome is passed through. -/
def context_set_env (key value : String) (env0 : Env)
    (body : Env → Env × Except String Unit) : Env × Except String Unit :=
  let origValue := envGet env0 key
  let inner := body (envSet env0 key value)
  (match origValue with
   | some ov => envSet inner.1 key ov
   | none => inner.1,
   inner.2)

/-- Does one character list start with another? -/
def startsWithChars : List Char → List Char → Bool
  | _, [] => true
  | [], _ :: _ => false
  | c :: cs, p :: ps => c == p && startsWithChars cs ps

/-- Substring containment on character lists. -/
def containsChars : List Char → List Char → Bool
  | [], p => p.isEmpty
  | c :: cs, p => startsWithChars (c :: cs) p || containsChars cs p

/-- The Python bytes containment test `wait_for in line`. -/
def lineContains (line pat : String) : Bool :=
  containsChars line.toList pat.toList

/-- The readiness test of the drain loop:
`wait_for is not None and wait_for in line`. -/
def lineMatches (wait_for : Option String) (line : String) : Bool :=
  match wait_for with
  | some pat => lineContains line pat
  | none => false

/-- State of the drain thread of `run_process`: the readiness event
flag and the two line buffers (`lines` before readiness fires,
`startup_lines` after). -/
structure DrainState where
  eventSet : Bool
  lines : List String
  startup_lines : List String

/-- One iteration of the `read_stdout` loop for a line read before
stream close: append the raw line to the buffer selected by the current
readiness flag, then set the flag (idempotently) if the line contains
the readiness pattern. -/
def drainStep (wait_for : Option String) (st : DrainState) (line : String) :
    DrainState :=
  let st2 :=
    if st.eventSet then { st with startup_lines := st.startup_lines ++ [line] }
    else { st with lines := st.lines ++ [line] }
  if lineMatches wait_for line then { st2 with eventSet := true } else st2

/-- Result of the drain thread: the final flag, the two buffers, and
the captured stdout, which joins the pre-readiness buffer only. -/
structure DrainResult where
  eventSet : Bool
  lines : List String
  startup_lines : List String
  stdout : String

/-- Python `read_stdout`: the single background drain pass, folding the loop
body over the lines read until stream close. -/
def read_stdout (wait_for : Option String) (input : List String) :
    DrainResult :=
  let st := input.foldl (drainStep wait_for) ⟨false, [], []⟩
  ⟨st.eventSet, st.lines, st.startup_lines, String.join st.lines⟩

/-- The prefix of the input routed to the pre-readiness buffer: every
line up to and including the first one containing the pattern (the
matching line itself is appended before the flag is set). -/
def preReadyLines (wait_for : Option String) : List String → List String
  | [] => []
  | l :: ls =>
    if lineMatches wait_for l then [l] else l :: preReadyLines wait_for ls

/-- The suffix of the input routed to the post-readiness buffer: every
line strictly after the first one containing the pattern. -/
def postReadyLines (wait_for : Option String) : List String → List String
  | [] => []
  | l :: ls =>
    if lineMatches wait_for l then ls else postReadyLines wait_for ls

/-- Observable actions of the process-supervision layer: the lifecycle
steps of `run_process` applied to a named process, environment
overrides, and the pyepics client reset. -/
inductive Act where
  | spawn (name : String)
  | startDrain (name : String)
  | waitReady (name : String)
  | sleepQ (name : String) (period : ℚ)
  | closeStdin (name : String)
  | terminate (name : String)
  | waitExit (name : String)
  | joinDrain (name : String)
  | setEnv (key value : String)
  | restoreEnv (key : String)
  | resetLibca
  deriving DecidableEq

/-- A scenario body in the trace model: the actions it performs and
whether it returns normally (`.ok`) or raises (`.error`). -/
abbrev Traced := List Act × Except String Unit

/-- A context manager reduced to its enter and exit action sequences. -/
structure CtxMgr where
  enter : List Act
  exit : List Act

/-- Semantics of `with m: body`: the enter actions, the body, then the
exit actions on every exit path (`finally` semantics), with the body
outcome passed through. -/
def withCtx (m : CtxMgr) (t : Traced) : Traced :=
  (m.enter ++ t.1 ++ m.exit, t.2)

/-- Python `run_process(cmd, env, ..., interactive, wait_for,
quiescence_period)` as a context manager: spawn the process with
redirected streams, start the single drain thread, and block up to the
startup time for readiness; on exit, sleep any positive quiescence
period, then close stdin if interactive else send terminate, wait on
the process, and join the drain thread. -/
def run_process_mgr (name : String) (interactive : Bool)
    (quiescence_period : ℚ) : CtxMgr where
  enter := [.spawn name, .startDrain name, .waitReady name]
  exit :=
    (if 0 < quiescence_period then [Act.sleepQ name quiescence_period]
     else []) ++
    (if interactive then [Act.closeStdin name] else [Act.terminate name]) ++
    [Act.waitExit name, Act.joinDrain name]

/-- One `run_process` scope around a body. -/
def run_process_model (name : String) (interactive : Bool)
    (quiescence_period : ℚ) (body : Traced) : Traced :=
  withCtx (run_process_mgr name interactive quiescence_period) body

/-- Actions belonging to the teardown phase of the named process. -/
def isTeardownAct (name : String) : Act → Bool
  | .sleepQ n _ => n == name
  | .closeStdin n => n == name
  | .terminate n => n == name
  | .waitExit n => n == name
  | .joinDrain n => n == name
  | _ => false

/-- Index of the first occurrence of an action in a trace. -/
def firstIdx (a : Act) : List Act → Option Nat
  | [] => none
  | x :: rest => if x = a then some 0 else (firstIdx a rest).map (· + 1)

/-- Does the first occurrence of `a` strictly precede the first
occurrence of `b` in the trace? -/
def occursBeforeB (a b : Act) (tr : List Act) : Bool :=
  match firstIdx a tr, firstIdx b tr with
  | some i, some j => decide (i < j)
  | _, _ => false

/-- The manager `context_set_env` in the trace model (its environment-value
bookkeeping is modelled separately by `context_set_env` over `Env`). -/
def envMgr (key value : String) : CtxMgr where
  enter := [.setEnv key value]
  exit := [.restoreEnv key]

/-- Python `local_channel_access()`: override `EPICS_CA_AUTO_ADDR_LIST` and
`EPICS_CA_ADDR_LIST` so traffic reaches only the spawned IOC and
gateway ports, and reset the pyepics client before the body runs. -/
def local_channel_access_trace (body : Traced) : Traced :=
  withCtx (envMgr "EPICS_CA_AUTO_ADDR_LIST" "NO")
    (withCtx (envMgr "EPICS_CA_ADDR_LIST" "localhost:62782 localhost:62783")
      (Act.resetLibca :: body.1, body.2))

/-- Python `run_gateway(...)`: non-interactive, readiness pattern "Running as
user", quiescence period 1.0 second exactly when the BASE environment
variable starts with "3.14". -/
def run_gateway_mgr (base314 : Bool) : CtxMgr :=
  run_process_mgr "gateway" false (if base314 then 1 else 0)

/-- Python `run_ioc(...)`: interactive (exits by closing its stdin), readiness
pattern "epics>", no quiescence period. -/
def run_ioc_mgr : CtxMgr :=
  run_process_mgr "ioc" true 0

/-- Python `file_test_environment(...)` (and the identically-ordered scope
nest of `custom_environment`): the scope nest
`with run_gateway(...), run_ioc(...), local_channel_access():` around
the scenario body. -/
def file_test_environment_trace (base314 : Bool) (body : Traced) : Traced :=
  withCtx (run_gateway_mgr base314)
    (withCtx run_ioc_mgr (local_channel_access_trace body))

example : find_differences [("x", Val.nan)] [("x", Val.nan)] "g" "i" none
    = .ok [] := by rfl

example : find_differences [("x", Val.nan)] [("x", Val.num 0)] "g" "i" none
    = .ok [("x", Val.nan, Val.num 0)] := by rfl

example : compare_subscription_events [[("value", Val.num 2)], [("value", Val.num 2)]]
    "time" [[("value", Val.num 2)], [("value", Val.num 2)]] false false true
    = .error "Gateway events = 1, but IOC events = 2." := by rfl

theorem mem_insertSorted {x k : String} {l : List String} :
    x ∈ insertSorted k l ↔ x = k ∨ x ∈ l := by
  induction l with
  | nil => simp [insertSorted]
  | cons y ys ih =>
    simp only [insertSorted]
    split
    · simp [List.mem_cons]
    · simp only [List.mem_cons, ih]
      tauto

theorem mem_sortKeys {x : String} {l : List String} :
    x ∈ sortKeys l ↔ x ∈ l := by
  induction l with
  | nil => simp [sortKeys]
  | cons y ys ih => simp [sortKeys, mem_insertSorted, ih]

theorem mem_dedupKeys {x : String} {l : List String} :
    x ∈ dedupKeys l ↔ x ∈ l := by
  induction l with
  | nil => simp [dedupKeys]
  | cons y ys ih =>
    simp only [dedupKeys]
    split
    · rename_i hmem
      simp only [List.mem_cons, ih]
      constructor
      · exact fun h => Or.inr h
      · rintro (rfl | h)
        · exact ih.mp hmem
        · exact h
    · simp [List.mem_cons, ih]

theorem mem_sortedUnionKeys {k : String} {s1 s2 : Struct} :
    k ∈ sortedUnionKeys s1 s2 ↔ k ∈ structKeys s1 ∨ k ∈ structKeys s2 := by
  simp [sortedUnionKeys, mem_sortKeys, mem_dedupKeys, List.mem_append]

theorem structGet_eq_none {s : Struct} {k : String} :
    structGet s k = none ↔ k ∉ structKeys s := by
  induction s with
  | nil => simp [structGet, structKeys]
  | cons kv rest ih =>
    obtain ⟨k2, v⟩ := kv
    simp only [structGet, structKeys, List.map_cons, List.mem_cons]
    split
    · rename_i heq
      subst heq
      simp
    · rename_i hne
      simp only [ih, structKeys]
      constructor
      · intro h
        rintro (rfl | hmem)
        · exact hne rfl
        · exact h hmem
      · intro h hmem
        exact h (Or.inr hmem)

theorem structGet_isSome {s : Struct} {k : String} :
    (structGet s k).isSome ↔ k ∈ structKeys s := by
  rw [Option.isSome_iff_ne_none, Ne, structGet_eq_none, not_not]

theorem findDiffsAux_error_of_missing (s1 s2 : Struct) (d1 d2 : String)
    (skip : List String) (k : String) :
    ∀ ks : List String, k ∈ ks → k ∉ skip →
      (structGet s1 k = none ∨ structGet s2 k = none) →
      ∃ msg, findDiffsAux s1 s2 d1 d2 skip ks = .error msg := by
  intro ks
  induction ks with
  | nil => simp
  | cons k2 ks ih =>
    intro hmem hskip hmiss
    rcases List.mem_cons.mp hmem with heq | htail
    · subst heq
      rw [findDiffsAux, if_neg hskip]
      rcases hmiss with h1 | h2
      · rw [h1]
        exact ⟨_, rfl⟩
      · cases hg1 : structGet s1 k with
        | none => exact ⟨_, rfl⟩
        | some v1 =>
          rw [h2]
          exact ⟨_, rfl⟩
    · obtain ⟨m, hm⟩ := ih htail hskip hmiss
      rw [findDiffsAux]
      split
      · exact ⟨m, hm⟩
      · cases hg1 : structGet s1 k2 with
        | none => exact ⟨_, rfl⟩
        | some v1 =>
          cases hg2 : structGet s2 k2 with
          | none => exact ⟨_, rfl⟩
          | some v2 =>
            simp only
            split
            · exact ⟨m, hm⟩
            · split
              · exact ⟨m, hm⟩
              · rw [hm]
                exact ⟨m, rfl⟩

theorem findDiffsAux_ok_mem (s1 s2 : Struct) (d1 d2 : String)
    (skip : List String) :
    ∀ (ks : List String) (ds : List (String × Val × Val)),
      findDiffsAux s1 s2 d1 d2 skip ks = .ok ds →
      ∀ t ∈ ds, t.1 ∈ ks ∧ t.1 ∉ skip := by
  intro ks
  induction ks with
  | nil =>
    intro ds h t ht
    rw [findDiffsAux] at h
    cases h
    simp at ht
  | cons k2 ks ih =>
    intro ds h t ht
    rw [findDiffsAux] at h
    by_cases hS : k2 ∈ skip
    · rw [if_pos hS] at h
      obtain ⟨hmem, hns⟩ := ih ds h t ht
      exact ⟨List.mem_cons_of_mem _ hmem, hns⟩
    · rw [if_neg hS] at h
      cases hg1 : structGet s1 k2 with
      | none => rw [hg1] at h; cases h
      | some v1 =>
        rw [hg1] at h
        cases hg2 : structGet s2 k2 with
        | none => rw [hg2] at h; cases h
        | some v2 =>
          rw [hg2] at h
          simp only at h
          split at h
          · obtain ⟨hmem, hns⟩ := ih ds h t ht
            exact ⟨List.mem_cons_of_mem _ hmem, hns⟩
          · split at h
            · obtain ⟨hmem, hns⟩ := ih ds h t ht
              exact ⟨List.mem_cons_of_mem _ hmem, hns⟩
            · cases hrest : findDiffsAux s1 s2 d1 d2 skip ks with
              | error e => rw [hrest] at h; cases h
              | ok rest =>
                rw [hrest] at h
                cases h
                rcases List.mem_cons.mp ht with rfl | htl
                · exact ⟨List.mem_cons_self _ _, hS⟩
                · obtain ⟨hmem, hns⟩ := ih rest hrest t htl
                  exact ⟨List.mem_cons_of_mem _ hmem, hns⟩

theorem findDiffsAux_ok_of_present (s1 s2 : Struct) (d1 d2 : String)
    (skip : List String) :
    ∀ ks : List String,
      (∀ k ∈ ks, k ∉ skip →
        (structGet s1 k).isSome ∧ (structGet s2 k).isSome) →
      ∃ ds, findDiffsAux s1 s2 d1 d2 skip ks = .ok ds := by
  intro ks
  induction ks with
  | nil => exact fun _ => ⟨[], rfl⟩
  | cons k2 ks ih =>
    intro hpres
    have htail := fun k hk => hpres k (List.mem_cons_of_mem _ hk)
    obtain ⟨ds, hds⟩ := ih htail
    rw [findDiffsAux]
    by_cases hS : k2 ∈ skip
    · rw [if_pos hS]
      exact ⟨ds, hds⟩
    · rw [if_neg hS]
      obtain ⟨h1, h2⟩ := hpres k2 (List.mem_cons_self _ _) hS
      obtain ⟨v1, hv1⟩ := Option.isSome_iff_exists.mp h1
      obtain ⟨v2, hv2⟩ := Option.isSome_iff_exists.mp h2
      rw [hv1, hv2]
      simp only
      split
      · exact ⟨ds, hds⟩
      · split
        · exact ⟨ds, hds⟩
        · rw [hds]
          exact ⟨_, rfl⟩

/-- C8: a key of the union of both key sets that is not on the skip
list and is missing from either side makes `find_differences` raise a
`RuntimeError` (a hard error), rather than reporting a difference. -/
theorem find_differences_missing_key_error (s1 s2 : Struct) (d1 d2 : String)
    (skipOpt : Option (List String)) (k : String)
    (hk : k ∈ structKeys s1 ∨ k ∈ structKeys s2)
    (hskip : k ∉ skipOpt.getD ["chid"])
    (hmiss : structGet s1 k = none ∨ structGet s2 k = none) :
    ∃ msg, find_differences s1 s2 d1 d2 skipOpt = .error msg := by
  rw [find_differences]
  exact findDiffsAux_error_of_missing s1 s2 d1 d2 _ k _
    (mem_sortedUnionKeys.mpr hk) hskip hmiss

/-- C8 witness: a concrete structure pair with key "a" present only on
the first side yields a hard error. -/
theorem find_differences_missing_key_error_witness :
    ∃ msg, find_differences [("a", Val.num 1)] [] "g" "i" none = .error msg :=
  find_differences_missing_key_error [("a", Val.num 1)] [] "g" "i" none "a"
    (Or.inl (by simp [structKeys])) (by simp) (Or.inr rfl)

/-- C10: skip-list membership is checked before key presence, so a key
on the skip list is never yielded as a difference (first part), and if
every non-skipped key of the union is present on both sides then
`find_differences` succeeds regardless of whether skipped keys are
missing from one or both mappings (second part). -/
theorem find_differences_skip_before_presence (s1 s2 : Struct)
    (d1 d2 : String) (skipOpt : Option (List String)) :
    (∀ ds, find_differences s1 s2 d1 d2 skipOpt = .ok ds →
      ∀ t ∈ ds, t.1 ∉ skipOpt.getD ["chid"]) ∧
    ((∀ k ∈ structKeys s1 ++ structKeys s2, k ∉ skipOpt.getD ["chid"] →
        (structGet s1 k).isSome ∧ (structGet s2 k).isSome) →
      ∃ ds, find_differences s1 s2 d1 d2 skipOpt = .ok ds) := by
  constructor
  · intro ds h t ht
    exact (findDiffsAux_ok_mem s1 s2 d1 d2 _ _ ds h t ht).2
  · intro hpres
    rw [find_differences]
    refine findDiffsAux_ok_of_present s1 s2 d1 d2 _ _ (fun k hk hns => ?_)
    refine hpres k ?_ hns
    rw [List.mem_append]
    exact mem_sortedUnionKeys.mp hk

/-- C10 witness: with the default skip list, a "chid" key present only
on one side raises nothing. -/
theorem find_differences_skip_before_presence_witness :
    ∃ ds, find_differences [("chid", Val.num 7), ("value", Val.num 5)]
      [("value", Val.num 5)] "g" "i" none = .ok ds :=
  (find_differences_skip_before_presence [("chid", Val.num 7), ("value", Val.num 5)]
    [("value", Val.num 5)] "g" "i" none).2 (by decide)

theorem dedupAux_fixed :
    ∀ (es : List Struct) (last : Struct) (r : List Struct),
      dedupAux last es = .ok r → dedupAux last r = .ok r := by
  intro es
  induction es with
  | nil =>
    intro last r h
    rw [dedupAux] at h
    cases h
    rfl
  | cons event rest ih =>
    intro last r h
    rw [dedupAux] at h
    cases hc : compare_structures last event "Gateway" "IOC" with
    | error e =>
      rw [hc] at h
      cases h
    | ok c =>
      rw [hc] at h
      dsimp only at h
      by_cases hne : c ≠ ""
      · rw [if_pos hne] at h
        cases ht : dedupAux event rest with
        | error e => rw [ht] at h; cases h
        | ok tail =>
          rw [ht] at h
          cases h
          rw [dedupAux, hc]
          dsimp only
          rw [if_pos hne, ih event tail ht]
      · rw [if_neg hne] at h
        exact ih last r h

/-- C7: deduplication is idempotent; deduplicating an
already-deduplicated event log yields the same log (and an error in the
first pass is the result of the composition as well). -/
theorem deduplicate_events_idempotent (events : List Struct) :
    (deduplicate_events events).bind deduplicate_events
      = deduplicate_events events := by
  cases events with
  | nil => rfl
  | cons event rest =>
    rw [deduplicate_events]
    cases ht : dedupAux event rest with
    | error e => rfl
    | ok tail =>
      show deduplicate_events (event :: tail) = .ok (event :: tail)
      rw [deduplicate_events, dedupAux_fixed rest event tail ht]

example : deduplicate_events
    [[("value", Val.num 1)], [("value", Val.num 1)], [("value", Val.num 2)]]
    = .ok [[("value", Val.num 1)], [("value", Val.num 2)]] := by rfl

/-- C6: NaN is self-equivalent under the structured diff; a NaN against
an exact zero is classified as an accepted difference
(`is_acceptable_nan_difference`), so the comparison engine does not
raise on it unless strict NaN checking is requested. -/
theorem nan_self_and_zero_equivalence (d1 d2 : String) :
    find_differences [("x", Val.nan)] [("x", Val.nan)] d1 d2 none = .ok [] ∧
    is_acceptable_nan_difference Val.nan (Val.num 0) = true ∧
    compare_subscription_events [[("x", Val.nan)]] "time"
      [[("x", Val.num 0)]] false false true = .ok () ∧
    ∃ msg, compare_subscription_events [[("x", Val.nan)]] "time"
      [[("x", Val.num 0)]] false true true = .error msg :=
  ⟨rfl, rfl, rfl, ⟨_, rfl⟩⟩

theorem cse_two_one_reduction (gw0 gw1 i0 : Struct) (strict nanStrict : Bool)
    (hpair : compare_structures gw0 i0 "Gateway" "IOC" = .ok "") :
    compare_subscription_events [gw0, gw1] "time" [i0] strict nanStrict false =
      duplicateInitialCheck gw0 gw1 strict nanStrict := by
  have hf : (("time" : String) = "ctrl") = False := by simp
  rw [compare_subscription_events]
  simp only [Bool.false_eq_true, if_false, List.zip_cons_cons,
    List.zip_nil_right, List.length_cons, List.length_nil]
  rw [compareEventPairs]
  simp only [hf, if_false]
  rw [hpair]
  dsimp only
  rw [if_pos rfl, compareEventPairs]

/-- C4 (amended): when the deduplicated gateway log has exactly two
events and the IOC log exactly one, and the zipped first pair compares
clean, the comparison passes if the two gateway events are identical
(unless strict mode is requested, which raises), passes if they differ
only in the NaN/zero class (unless strict NaN mode is requested, which
raises), and fails if they genuinely differ.  The tolerance does not
apply in the opposite direction. -/
theorem two_vs_one_gateway_tolerance (gw0 gw1 i0 : Struct)
    (strict nanStrict : Bool)
    (hpair : compare_structures gw0 i0 "Gateway" "IOC" = .ok "") :
    (compare_structures gw0 gw1 "event 0" "event 1" = .ok "" →
      compare_subscription_events [gw0, gw1] "time" [i0] strict nanStrict false =
        if strict then .error "Duplicate initial event received" else .ok ()) ∧
    (∀ d ds, compare_structures gw0 gw1 "event 0" "event 1" = .ok d → d ≠ "" →
      find_differences gw0 gw1 "event 0" "event 1" none = .ok ds →
      ds.all (fun t => is_acceptable_nan_difference t.2.1 t.2.2) = true →
      compare_subscription_events [gw0, gw1] "time" [i0] strict nanStrict false =
        if nanStrict then .error ("NaN handling difference:\n" ++ d)
        else .ok ()) ∧
    (∀ d ds, compare_structures gw0 gw1 "event 0" "event 1" = .ok d → d ≠ "" →
      find_differences gw0 gw1 "event 0" "event 1" none = .ok ds →
      ds.all (fun t => is_acceptable_nan_difference t.2.1 t.2.2) = false →
      compare_subscription_events [gw0, gw1] "time" [i0] strict nanStrict false =
        .error ("Differences in events:\n" ++ d)) := by
  rw [cse_two_one_reduction gw0 gw1 i0 strict nanStrict hpair]
  refine ⟨?_, ?_, ?_⟩
  · intro hdup
    rw [duplicateInitialCheck, hdup]
    dsimp only
    rw [if_pos rfl]
  · intro d ds hd hdne hds hall
    rw [duplicateInitialCheck, hd]
    dsimp only
    rw [if_neg hdne, hds]
    dsimp only
    simp only [hall, if_true]
  · intro d ds hd hdne hds hall
    rw [duplicateInitialCheck, hd]
    dsimp only
    rw [if_neg hdne, hds]
    dsimp only
    simp [hall]

/-- C4 witness: two identical gateway events against one identical IOC
event, with strict mode requested, raise the duplicate-initial-event
failure. -/
theorem two_vs_one_gateway_tolerance_witness :
    compare_subscription_events [[("value", Val.num 1)], [("value", Val.num 1)]]
      "time" [[("value", Val.num 1)]] true false false =
      .error "Duplicate initial event received" :=
  (two_vs_one_gateway_tolerance [("value", Val.num 1)] [("value", Val.num 1)]
    [("value", Val.num 1)] true false (by rfl)).1 (by rfl)

/-- C4 counterexample: the length tolerance is not symmetric.  With one
gateway event and two identical IOC events, strict mode off, the claim
predicts a pass, but the code fails the final length assertion. -/
theorem two_vs_one_not_symmetric :
    compare_subscription_events [[("value", Val.num 1)]] "time"
      [[("value", Val.num 1)], [("value", Val.num 1)]] false false true
      = .error "Gateway events = 1, but IOC events = 2." := by rfl

/-- C5 (amended): with deduplication enabled, only the gateway log is
deduplicated before the index-by-index zip; the IOC log is compared
as captured. -/
theorem dedup_applies_to_gateway_log_only (gatewayEvents : List Struct)
    (form : String) (iocEvents : List Struct) (strict nanStrict : Bool) :
    compare_subscription_events gatewayEvents form iocEvents strict nanStrict true
      = (deduplicate_events gatewayEvents).bind
          (fun gws =>
            compare_subscription_events gws form iocEvents strict nanStrict false) := by
  cases h : deduplicate_events gatewayEvents with
  | error e => simp [compare_subscription_events, h, Except.bind]
  | ok gws => simp [compare_subscription_events, h, Except.bind]

/-- C5 counterexample: a duplicate event appearing identically in both
logs.  If both logs were deduplicated the comparison would pass; the
code deduplicates only the gateway log and fails the length
assertion. -/
theorem dedup_not_applied_to_ioc_log :
    compare_subscription_events
      [[("value", Val.num 3)], [("value", Val.num 3)]] "time"
      [[("value", Val.num 3)], [("value", Val.num 3)]] false false true
      = .error "Gateway events = 1, but IOC events = 2." := by rfl

theorem envGet_envSet_same (e : Env) (k v : String) :
    envGet (envSet e k v) k = some v := by
  induction e with
  | nil => simp [envSet, envGet]
  | cons kv rest ih =>
    obtain ⟨k2, v2⟩ := kv
    by_cases h : k2 = k
    · subst h
      simp [envSet, envGet]
    · simp [envSet, envGet, h, ih]

theorem envGet_envSet_other (e : Env) (k v k2 : String) (h : k2 ≠ k) :
    envGet (envSet e k v) k2 = envGet e k2 := by
  have h2 : ¬ (k = k2) := fun he => h he.symm
  induction e with
  | nil => simp [envSet, envGet, h2]
  | cons kv rest ih =>
    obtain ⟨k3, v3⟩ := kv
    by_cases h3 : k3 = k
    · subst h3
      simp [envSet, envGet, h2]
    · simp only [envSet, if_neg h3, envGet]
      split
      · rfl
      · exact ih

/-- C3 (amended): `context_set_env` saves the prior value and installs
the new one; on scope exit, normal or exceptional, a previously present
value is restored exactly and every other key is left as the body left
it; a previously absent key is NOT removed: the environment stays
exactly as the body left it, so the override value remains installed
when the body did not change it. -/
theorem context_set_env_restores (key value : String) (env0 : Env)
    (body : Env → Env × Except String Unit) :
    (context_set_env key value env0 body).2
        = (body (envSet env0 key value)).2 ∧
    (∀ ov, envGet env0 key = some ov →
      envGet (context_set_env key value env0 body).1 key = some ov) ∧
    (envGet env0 key = none →
      (context_set_env key value env0 body).1
        = (body (envSet env0 key value)).1) ∧
    (∀ k2, k2 ≠ key →
      envGet (context_set_env key value env0 body).1 k2
        = envGet (body (envSet env0 key value)).1 k2) := by
  refine ⟨rfl, ?_, ?_, ?_⟩
  · intro ov hov
    simp only [context_set_env, hov]
    exact envGet_envSet_same _ _ _
  · intro hnone
    simp only [context_set_env, hnone]
  · intro k2 h2
    simp only [context_set_env]
    cases envGet env0 key with
    | none => rfl
    | some ov => exact envGet_envSet_other _ _ _ _ h2

/-- C3 witness: a previously present value is restored after the
scope. -/
theorem context_set_env_restores_witness :
    envGet (context_set_env "GWTEST_KEY" "NEW" [("GWTEST_KEY", "OLD")]
      (fun e => (e, Except.ok ()))).1 "GWTEST_KEY" = some "OLD" :=
  (context_set_env_restores "GWTEST_KEY" "NEW" [("GWTEST_KEY", "OLD")]
    (fun e => (e, Except.ok ()))).2.1 "OLD" rfl

/-- C3 counterexample: a key absent before entry is NOT absent after
exit; the override value is still installed once the scope has
closed. -/
theorem context_set_env_absent_key_not_removed :
    envGet (context_set_env "GWTEST_KEY" "VAL" []
      (fun e => (e, Except.ok ()))).1 "GWTEST_KEY" = some "VAL" := by rfl

theorem foldl_drainStep_true (wait_for : Option String) :
    ∀ (ls lines startup : List String),
      List.foldl (drainStep wait_for) ⟨true, lines, startup⟩ ls
        = ⟨true, lines, startup ++ ls⟩ := by
  intro ls
  induction ls with
  | nil => intro lines startup; simp
  | cons l rest ih =>
    intro lines startup
    have hstep : drainStep wait_for ⟨true, lines, startup⟩ l
        = ⟨true, lines, startup ++ [l]⟩ := by
      simp [drainStep]
    rw [List.foldl_cons, hstep, ih]
    simp

theorem foldl_drainStep_false (wait_for : Option String) :
    ∀ (ls lines startup : List String),
      List.foldl (drainStep wait_for) ⟨false, lines, startup⟩ ls
        = ⟨ls.any (lineMatches wait_for),
            lines ++ preReadyLines wait_for ls,
            startup ++ postReadyLines wait_for ls⟩ := by
  intro ls
  induction ls with
  | nil =>
    intro lines startup
    simp [preReadyLines, postReadyLines]
  | cons l rest ih =>
    intro lines startup
    by_cases hm : lineMatches wait_for l
    · have hstep : drainStep wait_for ⟨false, lines, startup⟩ l
          = ⟨true, lines ++ [l], startup⟩ := by
        simp [drainStep, hm]
      rw [List.foldl_cons, hstep, foldl_drainStep_true]
      simp [preReadyLines, postReadyLines, hm]
    · have hstep : drainStep wait_for ⟨false, lines, startup⟩ l
          = ⟨false, lines ++ [l], startup⟩ := by
        simp [drainStep, hm]
      rw [List.foldl_cons, hstep, ih]
      simp [preReadyLines, postReadyLines, hm]

theorem preReady_append_postReady (wait_for : Option String) :
    ∀ ls : List String,
      preReadyLines wait_for ls ++ postReadyLines wait_for ls = ls := by
  intro ls
  induction ls with
  | nil => rfl
  | cons l rest ih =>
    by_cases hm : lineMatches wait_for l <;>
      simp [preReadyLines, postReadyLines, hm, ih]

/-- C9 (amended): the single drain pass appends each raw line, without
any per-line timestamp, to the pre-readiness buffer until and including
the first line containing the readiness pattern, and to the
post-readiness buffer afterwards; the readiness flag ends set exactly
when some line matched (idempotently under repeated matches); no line
is lost; and the captured stdout joins the pre-readiness buffer. -/
theorem read_stdout_characterization (wait_for : Option String)
    (input : List String) :
    (read_stdout wait_for input).eventSet
        = input.any (lineMatches wait_for) ∧
    (read_stdout wait_for input).lines = preReadyLines wait_for input ∧
    (read_stdout wait_for input).startup_lines
        = postReadyLines wait_for input ∧
    preReadyLines wait_for input ++ postReadyLines wait_for input = input ∧
    (read_stdout wait_for input).stdout
        = String.join (preReadyLines wait_for input) := by
  have h := foldl_drainStep_false wait_for input [] []
  simp only [List.nil_append] at h
  refine ⟨?_, ?_, ?_, preReady_append_postReady wait_for input, ?_⟩ <;>
    simp [read_stdout, h]

/-- C9 counterexample: the buffers hold the raw lines unchanged; no
timestamp is attached to any line.  On a concrete input the
pre-readiness buffer is exactly the raw first two lines (up to and
including the matching one) and the post-readiness buffer exactly the
raw third line. -/
theorem read_stdout_lines_not_timestamped :
    (read_stdout (some "epics>") ["a", "epics> ready", "b"]).lines
        = ["a", "epics> ready"] ∧
    (read_stdout (some "epics>") ["a", "epics> ready", "b"]).startup_lines
        = ["b"] ∧
    (read_stdout (some "epics>") ["a", "epics> ready", "b"]).eventSet
        = true :=
  ⟨rfl, rfl, rfl⟩

theorem firstIdx_append_of_not_mem {a : Act} {l1 l2 : List Act}
    (h : a ∉ l1) :
    firstIdx a (l1 ++ l2) = (firstIdx a l2).map (· + l1.length) := by
  induction l1 with
  | nil => cases hf : firstIdx a l2 <;> simp [hf]
  | cons x xs ih =>
    have hx : ¬ (x = a) := fun he => h (he ▸ List.mem_cons_self x xs)
    have hxs : a ∉ xs := fun hm => h (List.mem_cons_of_mem _ hm)
    have hr := ih hxs
    cases hf : firstIdx a l2 with
    | none =>
      rw [hf] at hr
      simp [firstIdx, hx, hr, hf]
    | some i =>
      rw [hf] at hr
      simp [firstIdx, hx, hr, hf, Nat.add_assoc]

theorem occursBeforeB_append {a b : Act} {l1 l2 : List Act}
    (ha : a ∉ l1) (hb : b ∉ l1) (h : occursBeforeB a b l2 = true) :
    occursBeforeB a b (l1 ++ l2) = true := by
  rw [occursBeforeB] at h
  rw [occursBeforeB, firstIdx_append_of_not_mem ha,
    firstIdx_append_of_not_mem hb]
  cases hfa : firstIdx a l2 with
  | none => rw [hfa] at h; simp at h
  | some i =>
    cases hfb : firstIdx b l2 with
    | none => rw [hfa, hfb] at h; simp at h
    | some j =>
      rw [hfa, hfb] at h
      simp at h ⊢
      omega

theorem teardown_not_mem_enter (name : String) (interactive : Bool)
    (q : ℚ) (a : Act) (haT : isTeardownAct name a = true) :
    a ∉ (run_process_mgr name interactive q).enter := by
  intro hmem
  rw [run_process_mgr] at hmem
  simp only [List.mem_cons, List.not_mem_nil, or_false] at hmem
  rcases hmem with h1 | h1 | h1 <;> (subst h1; simp [isTeardownAct] at haT)

theorem teardown_not_mem_body {name : String} {body : Traced}
    (hb : ∀ x ∈ body.1, isTeardownAct name x = false)
    (a : Act) (haT : isTeardownAct name a = true) : a ∉ body.1 := by
  intro hmem
  rw [hb a hmem] at haT
  cases haT

theorem not_mem_append_act {a : Act} {l1 l2 : List Act}
    (h1 : a ∉ l1) (h2 : a ∉ l2) : a ∉ l1 ++ l2 := by
  intro hmem
  rcases List.mem_append.mp hmem with h | h
  exacts [h1 h, h2 h]

theorem count_run_process_model (name : String) (interactive : Bool)
    (q : ℚ) (body : Traced) (a : Act)
    (haT : isTeardownAct name a = true)
    (hb : ∀ x ∈ body.1, isTeardownAct name x = false) :
    (run_process_model name interactive q body).1.count a
      = ((run_process_mgr name interactive q).exit).count a := by
  have henter : ((run_process_mgr name interactive q).enter).count a = 0 :=
    List.count_eq_zero.mpr (teardown_not_mem_enter name interactive q a haT)
  have hbody : body.1.count a = 0 :=
    List.count_eq_zero.mpr (teardown_not_mem_body hb a haT)
  rw [run_process_model, withCtx]
  simp [List.count_append, henter, hbody]

theorem run_process_model_order (name : String) (interactive : Bool)
    (q : ℚ) (body : Traced)
    (hb : ∀ x ∈ body.1, isTeardownAct name x = false) (a b : Act)
    (haT : isTeardownAct name a = true) (hbT : isTeardownAct name b = true)
    (hex : occursBeforeB a b ((run_process_mgr name interactive q).exit)
      = true) :
    occursBeforeB a b (run_process_model name interactive q body).1
      = true := by
  rw [run_process_model, withCtx]
  exact occursBeforeB_append
    (not_mem_append_act (teardown_not_mem_enter name interactive q a haT)
      (teardown_not_mem_body hb a haT))
    (not_mem_append_act (teardown_not_mem_enter name interactive q b hbT)
      (teardown_not_mem_body hb b hbT))
    hex

/-- C1: on every exit of a `run_process` scope, whether the body
returns normally or raises, teardown runs exactly once: any positive
quiescence period is slept strictly before the signal; the signal is
closing stdin when interactive (waiting for natural exit) and a
terminate signal otherwise; the process is waited on after the signal;
and the drain-thread join is the final action of the scope.  The body
outcome is passed through unchanged. -/
theorem run_process_teardown_once (name : String) (interactive : Bool)
    (q : ℚ) (body : Traced)
    (hb : ∀ x ∈ body.1, isTeardownAct name x = false) :
    (run_process_model name interactive q body).2 = body.2 ∧
    (run_process_model name interactive q body).1.count
        (Act.waitExit name) = 1 ∧
    (run_process_model name interactive q body).1.count
        (Act.joinDrain name) = 1 ∧
    (run_process_model name interactive q body).1.getLast?
        = some (Act.joinDrain name) ∧
    (interactive = true →
      (run_process_model name interactive q body).1.count
          (Act.closeStdin name) = 1 ∧
      (run_process_model name interactive q body).1.count
          (Act.terminate name) = 0) ∧
    (interactive = false →
      (run_process_model name interactive q body).1.count
          (Act.terminate name) = 1 ∧
      (run_process_model name interactive q body).1.count
          (Act.closeStdin name) = 0) ∧
    (0 < q → occursBeforeB (Act.sleepQ name q)
        (if interactive then Act.closeStdin name else Act.terminate name)
        (run_process_model name interactive q body).1 = true) ∧
    occursBeforeB
        (if interactive then Act.closeStdin name else Act.terminate name)
        (Act.waitExit name)
        (run_process_model name interactive q body).1 = true ∧
    occursBeforeB (Act.waitExit name) (Act.joinDrain name)
        (run_process_model name interactive q body).1 = true := by
  have hsig : isTeardownAct name
      (if interactive then Act.closeStdin name else Act.terminate name)
      = true := by
    cases interactive <;> simp [isTeardownAct]
  refine ⟨rfl, ?_, ?_, ?_, ?_, ?_, ?_, ?_, ?_⟩
  · rw [count_run_process_model name interactive q body _
      (by simp [isTeardownAct]) hb, run_process_mgr]
    cases interactive <;> by_cases hq : (0 : ℚ) < q <;>
      simp [hq, List.count_append, List.count_cons]
  · rw [count_run_process_model name interactive q body _
      (by simp [isTeardownAct]) hb, run_process_mgr]
    cases interactive <;> by_cases hq : (0 : ℚ) < q <;>
      simp [hq, List.count_append, List.count_cons]
  · rw [run_process_model, withCtx, List.getLast?_append,
      List.getLast?_append]
    have hexit : ((run_process_mgr name interactive q).exit).getLast?
        = some (Act.joinDrain name) := by
      rw [run_process_mgr]
      rw [List.getLast?_append, List.getLast?_append]
      rfl
    rw [hexit]
    rfl
  · intro hi
    subst hi
    constructor <;>
      (rw [count_run_process_model name true q body _
        (by simp [isTeardownAct]) hb, run_process_mgr]
       by_cases hq : (0 : ℚ) < q <;>
         simp [hq, List.count_append, List.count_cons])
  · intro hi
    subst hi
    constructor <;>
      (rw [count_run_process_model name false q body _
        (by simp [isTeardownAct]) hb, run_process_mgr]
       by_cases hq : (0 : ℚ) < q <;>
         simp [hq, List.count_append, List.count_cons])
  · intro hq
    refine run_process_model_order name interactive q body hb _ _
      (by simp [isTeardownAct]) hsig ?_
    cases interactive <;>
      simp [run_process_mgr, hq, occursBeforeB, firstIdx]
  · refine run_process_model_order name interactive q body hb _ _
      hsig (by simp [isTeardownAct]) ?_
    cases interactive <;> by_cases hq : (0 : ℚ) < q <;>
      simp [run_process_mgr, hq, occursBeforeB, firstIdx]
  · refine run_process_model_order name interactive q body hb _ _
      (by simp [isTeardownAct]) (by simp [isTeardownAct]) ?_
    cases interactive <;> by_cases hq : (0 : ℚ) < q <;>
      simp [run_process_mgr, hq, occursBeforeB, firstIdx]

/-- C1 witness: a concrete non-interactive scope with a positive
quiescence period around a raising body. -/
theorem run_process_teardown_once_witness :
    (run_process_model "p" false 1
        ([Act.resetLibca], Except.error "boom")).2 = Except.error "boom" ∧
    (run_process_model "p" false 1
        ([Act.resetLibca], Except.error "boom")).1.count
        (Act.joinDrain "p") = 1 ∧
    occursBeforeB (Act.sleepQ "p" 1) (Act.terminate "p")
      (run_process_model "p" false 1
        ([Act.resetLibca], Except.error "boom")).1 = true := by
  have h := run_process_teardown_once "p" false 1
    ([Act.resetLibca], Except.error "boom") (by decide)
  refine ⟨h.1, h.2.2.1, ?_⟩
  have h7 := h.2.2.2.2.2.2.1 (by norm_num)
  simpa using h7

/-- C2 (amended): the dual-endpoint environment starts the gateway
(relay) process first, then the IOC (backing) process, then installs
the address-list overrides and resets the client; teardown is in
reverse scope order: restore addressing first, then stop the IOC by
closing its stdin, then stop the gateway with a terminate signal, each
exit running regardless of the body outcome, which is passed
through. -/
theorem file_test_environment_order (base314 : Bool) (body : Traced) :
    file_test_environment_trace base314 body =
      ([Act.spawn "gateway", Act.startDrain "gateway",
        Act.waitReady "gateway", Act.spawn "ioc", Act.startDrain "ioc",
        Act.waitReady "ioc", Act.setEnv "EPICS_CA_AUTO_ADDR_LIST" "NO",
        Act.setEnv "EPICS_CA_ADDR_LIST" "localhost:62782 localhost:62783",
        Act.resetLibca] ++ body.1 ++
       ([Act.restoreEnv "EPICS_CA_ADDR_LIST",
         Act.restoreEnv "EPICS_CA_AUTO_ADDR_LIST",
         Act.closeStdin "ioc", Act.waitExit "ioc", Act.joinDrain "ioc"] ++
        (if base314 then [Act.sleepQ "gateway" 1] else []) ++
        [Act.terminate "gateway", Act.waitExit "gateway",
         Act.joinDrain "gateway"]),
       body.2) := by
  have h0 : ¬ ((0 : ℚ) < 0) := lt_irrefl 0
  have h1 : (0 : ℚ) < 1 := by norm_num
  cases base314 <;>
    simp [file_test_environment_trace, withCtx, run_gateway_mgr, run_ioc_mgr,
      run_process_mgr, local_channel_access_trace, envMgr, h0, h1]

/-- C2 counterexample: in the concrete trace with an empty body, the
gateway (relay) is spawned strictly before the IOC (backing process),
and not the other way round as the claim states; at teardown the IOC is
stopped strictly before the gateway, and not the other way round; the
addressing restore still comes first. -/
theorem file_test_environment_order_counterexample :
    occursBeforeB (Act.spawn "gateway") (Act.spawn "ioc")
      (file_test_environment_trace false ([], Except.ok ())).1 = true ∧
    occursBeforeB (Act.spawn "ioc") (Act.spawn "gateway")
      (file_test_environment_trace false ([], Except.ok ())).1 = false ∧
    occursBeforeB (Act.closeStdin "ioc") (Act.terminate "gateway")
      (file_test_environment_trace false ([], Except.ok ())).1 = true ∧
    occursBeforeB (Act.terminate "gateway") (Act.closeStdin "ioc")
      (file_test_environment_trace false ([], Except.ok ())).1 = false ∧
    occursBeforeB (Act.restoreEnv "EPICS_CA_ADDR_LIST")
      (Act.closeStdin "ioc")
      (file_test_environment_trace false ([], Except.ok ())).1 = true := by
  refine ⟨?_, ?_, ?_, ?_, ?_⟩ <;> rfl

end CaGateway
